import Mathlib

/-!
Verification of the mailbox change-notification engine of the `prokaryotes`
repository (`src/prokaryotes/imap_v1.py`): the IDLE watcher state machine,
the signal queue, the MIME body-structure classifier, transfer decoding and
the message/part fetchers.  All definitions are shallow embeddings of the
Python source; `bytes` values are modelled as `String` (for header-like
fields) or `List Nat` (for raw octet payloads).
-/

namespace Prokaryotes

/-- Embeds `ControlSignalType` (imap_v1.py line 24): the enum of signal kinds. -/
inductive ControlSignalType where
  | EXISTS
  | FETCH
  | SHUTDOWN
  deriving DecidableEq, Repr

/-- Embeds the frozen dataclass `ControlSignal` (line 29): an optional payload
tuple (modelled as `Option (List Nat)`) plus a signal type. -/
structure ControlSignal where
  data : Option (List Nat)
  signal_type : ControlSignalType
  deriving DecidableEq, Repr

/-- Embeds the classmethod `ControlSignal.exists` (line 34). -/
def ControlSignal.existsSig : ControlSignal :=
  { data := none, signal_type := .EXISTS }

/-- Embeds the classmethod `ControlSignal.fetch` (line 38). -/
def ControlSignal.fetchSig (d : List Nat) : ControlSignal :=
  { data := some d, signal_type := .FETCH }

/-- Embeds the classmethod `ControlSignal.shutdown` (line 42). -/
def ControlSignal.shutdownSig : ControlSignal :=
  { data := none, signal_type := .SHUTDOWN }

/-- Model of Python's `queue.Queue`: a FIFO with a `maxsize`; in Python,
`maxsize <= 0` (here: `maxsize = 0`) means the queue is unbounded. -/
structure SignalQueue where
  maxsize : Nat
  items : List ControlSignal
  deriving DecidableEq, Repr

/-- Python `queue.Queue.full()` / the condition under which `put_nowait`
raises `queue.Full`: only a queue with a positive `maxsize` can be full. -/
def SignalQueue.isFull (q : SignalQueue) : Bool :=
  0 < q.maxsize && q.maxsize ≤ q.items.length

/-- A queue is bounded when its construction fixed a positive capacity
(Python semantics: `maxsize > 0`). -/
def SignalQueue.isBounded (q : SignalQueue) : Bool :=
  0 < q.maxsize

/-- Embeds the queue construction in `IngestController.__init__` (line 96):
`queue.Queue()` with the default `maxsize=0`, i.e. unbounded. -/
def mkIngestQueue : SignalQueue :=
  { maxsize := 0, items := [] }

/-- Embeds `IngestController.safe_put_nowait` (lines 154-158): try
`put_nowait`; when the queue is full the signal is dropped and one warning is
logged.  Returns the new queue together with the number of warnings logged by
this call (0 or 1).  The function is total: it never blocks and never fails. -/
def safe_put_nowait (q : SignalQueue) (s : ControlSignal) : SignalQueue × Nat :=
  if q.isFull then (q, 1)
  else ({ q with items := q.items ++ [s] }, 0)

/-- The phases of the IDLE watcher loop, named after the spec's state
machine (spec §4.2); `idling` corresponds to blocking in `idle_check`. -/
inductive WatcherPhase where
  | disconnected
  | selecting
  | idling
  | stopped
  deriving DecidableEq, Repr

/-- Tag of one untagged server response seen by `idle_check`
(imap_v1.py lines 122-129): `(9484, b'EXISTS')` or
`(9467, b'FETCH', payload)` or anything else. -/
inductive IdleRespTag where
  | rExists
  | rFetch (payload : List Nat)
  | rOther
  deriving DecidableEq, Repr

/-- One untagged response: a message number plus a tag. -/
structure IdleResp where
  num : Nat
  tag : IdleRespTag
  deriving DecidableEq, Repr

/-- Events driving one step of `IngestController.idle_manager`
(lines 106-138).  Wall-clock time cannot be embedded, so the periodic
restart comparison `time.monotonic() - time_started > idle_restart_seconds`
is delivered as the boolean `restartDue` of a `checked` event. -/
inductive WatcherEvent where
  | connected
  | idleIssued
  | checked (rs : List IdleResp) (restartDue : Bool)
  | connError
  deriving DecidableEq, Repr

/-- State of the watcher thread: the `_running` flag, the control-flow
phase, the shared queue and the cumulative count of logged warnings. -/
structure WatcherState where
  running : Bool
  phase : WatcherPhase
  queue : SignalQueue
  warnings : Nat
  deriving DecidableEq, Repr

/-- The test `r[1] == b'EXISTS'` for one response (line 125). -/
def IdleResp.isExists (r : IdleResp) : Bool :=
  match r.tag with
  | .rExists => true
  | _ => false

/-- Queue effect of one iteration of the `for r in responses` loop
(lines 127-129): a `FETCH` response emits `ControlSignal.fetch(r[2])`. -/
def putFetch (acc : SignalQueue × Nat) (r : IdleResp) : SignalQueue × Nat :=
  match r.tag with
  | .rFetch payload =>
      let res := safe_put_nowait acc.1 (ControlSignal.fetchSig payload)
      (res.1, acc.2 + res.2)
  | _ => acc

/-- Queue effect of the response-handling block of the inner idle loop
(lines 125-129): one `ControlSignal.exists()` is emitted when any response
is an `EXISTS`, then one `ControlSignal.fetch(r[2])` per `FETCH` response,
all via `safe_put_nowait`. -/
def emitSignals (rs : List IdleResp) (q : SignalQueue) (w : Nat) :
    SignalQueue × Nat :=
  let step1 :=
    if !rs.isEmpty && rs.any IdleResp.isExists then
      let res := safe_put_nowait q ControlSignal.existsSig
      (res.1, w + res.2)
    else (q, w)
  rs.foldl putFetch step1

/-- One step of `IngestController.idle_manager` (lines 106-138).

* `disconnected` + `connected`: the outer `while self._running` loop body
  runs `get_client()` (only reached when `_running` holds); the folder is
  then selected (`idle(client, folder)` line 116 first calls
  `select_folder`).
* `selecting` + `idleIssued`: `client.idle()` has been issued; the inner
  loop is entered.
* `idling` + `checked rs due`: one `idle_check` returned `rs`; signals are
  emitted; a due periodic restart re-issues IDLE on the same connection
  (lines 131-136) and the loop re-tests `_running` before the next
  `idle_check` — the phase stays `idling` (no re-select, no teardown)
  unless `_running` was cleared, in which case both loops exit.
* any phase + `connError`: a member of `CONNECTION_ERRORS` propagates to
  line 137; the outer loop then re-tests `_running`: set → a fresh cycle
  begins from `disconnected` (reconnect); cleared → the thread returns.
Events impossible for the current phase leave the state unchanged. -/
def idleManagerStep (s : WatcherState) (e : WatcherEvent) : WatcherState :=
  if s.phase = .stopped then s
  else
    match e with
    | .connError =>
        if s.running then { s with phase := .disconnected }
        else { s with phase := .stopped }
    | .connected =>
        if s.phase = .disconnected then
          if s.running then { s with phase := .selecting }
          else { s with phase := .stopped }
        else s
    | .idleIssued =>
        if s.phase = .selecting then { s with phase := .idling } else s
    | .checked rs _due =>
        if s.phase = .idling then
          let (q', w') := emitSignals rs s.queue s.warnings
          if s.running then { s with queue := q', warnings := w' }
          else { s with queue := q', warnings := w', phase := .stopped }
        else s

/-- Embeds `IngestController.graceful_shutdown` (lines 99-104): clears
`_running` (the forced socket close it also performs is delivered to the
watcher as a later `connError` event) and pushes a shutdown signal. -/
def graceful_shutdown (s : WatcherState) : WatcherState :=
  let (q', dw) := safe_put_nowait s.queue ControlSignal.shutdownSig
  { s with running := false, queue := q', warnings := s.warnings + dw }

/-! ## MIME body structures and the classifier -/

/-- Models Python's `str.lower()` on the ASCII protocol tokens this module
lowercases (content types, encodings, dispositions, param keys):
character-wise ASCII lowercasing. -/
def pyLower (s : String) : String :=
  String.mk (s.data.map Char.toLower)

/-- Decimal digit characters of a natural number, most significant first:
the embedding of Python's `str(i)` / f-string rendering of a nonnegative
integer (used for section numbers in `iter_leaf_parts`, line 290). -/
def natChars (n : Nat) : List Char :=
  if _h : n < 10 then [Nat.digitChar n]
  else natChars (n / 10) ++ [Nat.digitChar (n % 10)]
decreasing_by omega

/-- Python `str(i)` for a nonnegative integer `i`. -/
def natStr (n : Nat) : String :=
  String.mk (natChars n)

/-- The value at index 9 of a leaf body-structure tuple: Python-side it is
`None`, a nonempty tuple `(name, params?)`, or (defensively handled by
`parse_disposition`, line 314) a bare bytes value. -/
inductive PyDisposition where
  | pnone
  | ptup (name : String) (ps : Option (List String))
  | praw (s : String)
  deriving DecidableEq, Repr

/-- A leaf body-structure tuple per RFC 3501 §7.4.2, with the positional
fields the classifier reads: `part[0]` type, `part[1]` subtype, `part[2]`
params, `part[5]` encoding, `part[6]` size, `part[9]` disposition.  A
Python field that can be `None` or absent (`len(part) > k` guards) is an
`Option`; `sizeField` is `none` whenever `part[6]` is not an `int`. -/
structure LeafTuple where
  typ : String
  subtype : String
  params : Option (List String)
  encodingField : Option String
  sizeField : Option Nat
  dispositionField : PyDisposition
  deriving DecidableEq, Repr

/-- A `BODYSTRUCTURE` response value: the source treats a tuple whose first
element is a list as multipart (line 287) and anything else as a leaf. -/
inductive BodyStructure where
  | leaf (t : LeafTuple)
  | multi (children : List BodyStructure)

/-- Embeds `parse_params` (lines 320-329): walk the alternating key/value
list two at a time (a trailing odd element is ignored, as in
`range(0, len - 1, 2)`), lowercasing keys; later duplicates overwrite
earlier ones, as with a Python dict. -/
def paramPairs : List String → List (String × String)
  | k :: v :: rest => (pyLower k, v) :: paramPairs rest
  | _ => []

/-- The dict built by `parse_params`, as a lookup function (`dict.get`);
`none` input embeds both `None` and a missing tuple slot. -/
def parse_params (ps : Option (List String)) : String → Option String :=
  match ps with
  | none => fun _ => none
  | some l =>
      (paramPairs l).foldl
        (fun f kv x => if x = kv.1 then some kv.2 else f x)
        (fun _ => none)

/-- Embeds `parse_disposition` (lines 306-314): `None`/empty → `(None, {})`;
a tuple `(name, params?)` → the lowercased name (or `None` when the name is
the empty string, Python falsiness) and its parsed params; a bare bytes
value → the string itself, not lowercased, with empty params. -/
def parse_disposition (d : PyDisposition) : Option String × (String → Option String) :=
  match d with
  | .pnone => (none, fun _ => none)
  | .ptup name ps =>
      ((if name.isEmpty then none else some (pyLower name)), parse_params ps)
  | .praw s => (some s, fun _ => none)

/-- Python's `x or y` on optional strings: `x` unless it is falsy
(`None` or the empty string), else `y` (used for `filename`, line 179). -/
def pyOrStr (a b : Option String) : Option String :=
  match a with
  | some s => if s.isEmpty then b else some s
  | none => b

/-- Python truthiness of an optional string (`and filename`, line 198). -/
def strTruthy (a : Option String) : Bool :=
  match a with
  | some s => !s.isEmpty
  | none => false

/-- Embeds the frozen dataclass `MessagePartRef` (line 52); the source
field `section` is named `sect` here (`section` is reserved in Lean). -/
structure MessagePartRef where
  folder : String
  uid : Nat
  sect : String
  content_type : String
  encoding : Option String
  filename : Option String
  size : Option Nat
  charset : Option String
  deriving DecidableEq, Repr

mutual

/-- Embeds `iter_leaf_parts` (lines 286-294): depth-first walk of the body
structure; a multipart node walks its children with 1-based indices
appended to the dotted path; a leaf yields `prefix or "TEXT"` (the source
parameter `prefix` is named `pfx` here). -/
def iter_leaf_parts : BodyStructure → String → List (String × LeafTuple)
  | .leaf t, pfx => [((if pfx.isEmpty then "TEXT" else pfx), t)]
  | .multi cs, pfx => iterChildren cs pfx 1

/-- The `enumerate(body_structure[0], start=1)` loop of `iter_leaf_parts`:
child `i` gets section `f"{pfx}.{i}"`, or `str(i)` at the top level. -/
def iterChildren : List BodyStructure → String → Nat → List (String × LeafTuple)
  | [], _, _ => []
  | c :: rest, pfx, i =>
      iter_leaf_parts c (if pfx.isEmpty then natStr i else pfx ++ "." ++ natStr i) ++
        iterChildren rest pfx (i + 1)
end

mutual

/-- The walk of `iter_leaf_parts` with sections kept as index paths
(`List Nat`) instead of rendered strings: the leaf at path
`[i₁, …, iₖ]` is the one the source labels `"i₁.….iₖ"`. -/
def leafPaths : BodyStructure → List Nat → List (List Nat × LeafTuple)
  | .leaf t, p => [(p, t)]
  | .multi cs, p => leafPathsChildren cs p 1

/-- Path-level version of `iterChildren`. -/
def leafPathsChildren : List BodyStructure → List Nat → Nat → List (List Nat × LeafTuple)
  | [], _, _ => []
  | c :: rest, p, i =>
      leafPaths c (p ++ [i]) ++ leafPathsChildren rest p (i + 1)

end

/-- The string the walk builds along a path: empty for the root, else the
dotted decimal components. -/
def renderPath : List Nat → String
  | [] => ""
  | a :: rest => rest.foldl (fun acc i => acc ++ "." ++ natStr i) (natStr a)

/-- Character run contributed by the 2nd, 3rd, … components of a path:
a dot followed by the component's digits, per component. -/
def dotsChunks : List Nat → List Char
  | [] => []
  | i :: rest => '.' :: natChars i ++ dotsChunks rest

/-- The section string of a leaf at a given path: `"TEXT"` at the root
(`prefix or "TEXT"`, line 294), else the dotted path. -/
def sectionOfPath (q : List Nat) : String :=
  if q.isEmpty then "TEXT" else renderPath q

/-- The content type built for one leaf (line 176):
`f"{bytes2str(part[0]).lower()}/{bytes2str(part[1]).lower()}"`. -/
def leafContentType (t : LeafTuple) : String :=
  pyLower t.typ ++ "/" ++ pyLower t.subtype

/-- The `MessagePartRef` built for one leaf in the loop body of
`classify_parts` (lines 176-189): lowercased `type/subtype` content type,
charset from params (lowercased), encoding lowercased with Python-falsy
values collapsed to `None`, size only when the field held an `int`, and
`filename = disposition_params.get("filename") or params.get("name")`. -/
def mkPartRef (folder : String) (uid : Nat) (sect : String) (part : LeafTuple) :
    MessagePartRef :=
  let ps := parse_params part.params
  let dp := parse_disposition part.dispositionField
  let filename := pyOrStr (dp.2 "filename") (ps "name")
  { folder := folder
    uid := uid
    sect := sect
    content_type := leafContentType part
    charset := (ps "charset").map pyLower
    encoding :=
      match part.encodingField with
      | some e => if e.isEmpty then none else some (pyLower e)
      | none => none
    size := part.sizeField
    filename := filename }

/-- The routing condition of line 198:
`disposition == "attachment" or (disposition == "inline" and filename)`. -/
def isAttachmentLeaf (part : LeafTuple) : Bool :=
  let dp := parse_disposition part.dispositionField
  let ps := parse_params part.params
  let filename := pyOrStr (dp.2 "filename") (ps "name")
  dp.1 = some "attachment" || (dp.1 = some "inline" && strTruthy filename)

/-- How many of the four output buckets one leaf lands in: one per
matching routing condition of lines 191-199. -/
def leafBucketCount (t : LeafTuple) : Nat :=
  (if leafContentType t = "text/html" then 1 else 0) +
    (if leafContentType t = "text/plain" then 1 else 0) +
    (if leafContentType t = "text/calendar" then 1 else 0) +
    (if isAttachmentLeaf t then 1 else 0)

/-- The four accumulated buckets of `classify_parts`. -/
abbrev Classified :=
  List MessagePartRef × List MessagePartRef × List MessagePartRef ×
    List MessagePartRef

/-- One iteration of the `classify_parts` loop (lines 173-199): build the
leaf's `MessagePartRef` and append it to the `html`/`plain`/`calendar`
bucket selected by the `if/elif` chain on the content type, and (a
separate `if`) to `attachments` when `isAttachmentLeaf` holds. -/
def classifyStep (folder : String) (uid : Nat) (acc : Classified)
    (sp : String × LeafTuple) : Classified :=
  let (html_parts, plain_parts, calendar_parts, attachment_parts) := acc
  let ref := mkPartRef folder uid sp.1 sp.2
  let ct := ref.content_type
  let html_parts := if ct = "text/html" then html_parts ++ [ref] else html_parts
  let plain_parts :=
    if ct ≠ "text/html" ∧ ct = "text/plain" then plain_parts ++ [ref]
    else plain_parts
  let calendar_parts :=
    if ct ≠ "text/html" ∧ ct ≠ "text/plain" ∧ ct = "text/calendar" then
      calendar_parts ++ [ref]
    else calendar_parts
  let attachment_parts :=
    if isAttachmentLeaf sp.2 then attachment_parts ++ [ref]
    else attachment_parts
  (html_parts, plain_parts, calendar_parts, attachment_parts)

/-- Embeds `classify_parts` (lines 166-200): walk the leaves and route each
one through `classifyStep`, starting from four empty buckets. -/
def classify_parts (folder : String) (uid : Nat) (bs : BodyStructure) :
    Classified :=
  (iter_leaf_parts bs "").foldl (classifyStep folder uid) ([], [], [], [])

/-- The sort key of `choose_largest_part` (line 164):
`m.size if m.size is not None else 0`. -/
def sizeKey (m : MessagePartRef) : Nat :=
  m.size.getD 0

/-- Embeds `choose_largest_part` (lines 163-164): Python's `max` with a key
scans left to right and replaces the running best only on a strictly
greater key, so the first maximal element wins; `max` over an empty list
raises, modelled as `none`. -/
def choose_largest_part : List MessagePartRef → Option MessagePartRef
  | [] => none
  | x :: xs =>
      some (xs.foldl (fun best m => if sizeKey m > sizeKey best then m else best) x)

/-! ## Transfer decoding: base64 and quoted-printable

Raw octet payloads are `List Nat` with every element < 256.  The stdlib
codecs the source dispatches to (`base64.b64decode`, `quopri.decodestring`,
line 206-209) and their encoding counterparts used by the spec's roundtrip
property are modelled here byte for byte. -/

/-- The base64 alphabet, index = sextet value. -/
def b64Alphabet : List Char :=
  "ABCDEFGHIJKLMNOPQRSTUVWXYZabcdefghijklmnopqrstuvwxyz0123456789+/".toList

/-- Byte encoding a sextet (`0 ≤ v < 64`). -/
def b64Code (v : Nat) : Nat :=
  (b64Alphabet.getD v 'A').toNat

/-- Index of byte `b` in list `l`, starting the count at `i`. -/
def lookupIdx : List Nat → Nat → Nat → Option Nat
  | [], _, _ => none
  | a :: rest, b, i => if a = b then some i else lookupIdx rest b (i + 1)

/-- Sextet value of one base64 alphabet byte, `none` for padding/noise. -/
def b64Val (b : Nat) : Option Nat :=
  lookupIdx (b64Alphabet.map Char.toNat) b 0

/-- Models `base64.b64encode`: 3 input bytes become 4 alphabet bytes; a
final 1- or 2-byte group is padded with `=` (byte 61). -/
def b64encode : List Nat → List Nat
  | [] => []
  | [b0] =>
      let n := b0 * 65536
      [b64Code (n / 262144), b64Code (n / 4096 % 64), 61, 61]
  | [b0, b1] =>
      let n := b0 * 65536 + b1 * 256
      [b64Code (n / 262144), b64Code (n / 4096 % 64), b64Code (n / 64 % 64), 61]
  | b0 :: b1 :: b2 :: rest =>
      let n := b0 * 65536 + b1 * 256 + b2
      b64Code (n / 262144) :: b64Code (n / 4096 % 64) :: b64Code (n / 64 % 64) ::
        b64Code (n % 64) :: b64encode rest

/-- Models `base64.b64decode` on well-formed input: 4 bytes at a time,
emitting 1, 2 or 3 output bytes according to the `=` padding.  Malformed
input (where Python raises `binascii.Error`) decodes to `[]`. -/
def b64decode : List Nat → List Nat
  | c0 :: c1 :: c2 :: c3 :: rest =>
      match b64Val c0, b64Val c1,
        (if c2 = 61 then some 0 else b64Val c2),
        (if c3 = 61 then some 0 else b64Val c3) with
      | some v0, some v1, some v2, some v3 =>
          let m := v0 * 262144 + v1 * 4096 + v2 * 64 + v3
          if c2 = 61 then [m / 65536]
          else if c3 = 61 then [m / 65536, m / 256 % 256]
          else m / 65536 :: m / 256 % 256 :: m % 256 :: b64decode rest
      | _, _, _, _ => []
  | _ => []

/-- Uppercase hex digit byte of a nibble (`binascii.b2a_qp` uses uppercase). -/
def hexCode (v : Nat) : Nat :=
  (("0123456789ABCDEF".toList).getD v '0').toNat

/-- Nibble value of one hex digit byte; `quopri` accepts both cases. -/
def hexVal (b : Nat) : Option Nat :=
  match lookupIdx ("0123456789ABCDEF".toList.map Char.toNat) b 0 with
  | some v => some v
  | none => lookupIdx ("abcdef".toList.map Char.toNat) b 0 |>.map (· + 10)

/-- A byte `quopri.encodestring` (with `quotetabs=False`) passes through
literally: printable ASCII other than `=`, plus space and tab.  (The
stdlib additionally quotes trailing whitespace at end of line; that only
changes the chosen representation of a byte, not decodability, and is
elided here.) -/
def isQpSafe (b : Nat) : Bool :=
  (33 ≤ b && b ≤ 126 && b != 61) || b = 32 || b = 9

/-- The `=XX` escape of one byte. -/
def qpByte (b : Nat) : List Nat :=
  [61, hexCode (b / 16), hexCode (b % 16)]

/-- Models `quopri.encodestring` with `quotetabs=False`: newline bytes pass
through and reset the output column; safe bytes pass through; every other
byte becomes `=XX`; a soft line break `=\n` (bytes 61, 10) is inserted
whenever the 76-column line limit (`MAXLINESIZE`) would be exceeded. -/
def qpEncodeAux : List Nat → Nat → List Nat
  | [], _ => []
  | b :: rest, col =>
      if b = 10 then 10 :: qpEncodeAux rest 0
      else if isQpSafe b then
        if col + 1 > 75 then 61 :: 10 :: b :: qpEncodeAux rest 1
        else b :: qpEncodeAux rest (col + 1)
      else
        if col + 3 > 75 then 61 :: 10 :: (qpByte b ++ qpEncodeAux rest 3)
        else qpByte b ++ qpEncodeAux rest (col + 3)

/-- Models `quopri.encodestring`, starting at column 0. -/
def qpEncode (x : List Nat) : List Nat :=
  qpEncodeAux x 0

/-- Models `quopri.decodestring`: `=` followed by a (CR)LF is a soft line
break and is dropped; `=` followed by two hex digits is the escaped byte;
a malformed escape passes the `=` through; everything else is literal. -/
def qpDecode : List Nat → List Nat
  | [] => []
  | b :: rest =>
      if b = 61 then
        match rest with
        | x1 :: x2 :: tail =>
            if x1 = 10 then qpDecode (x2 :: tail)
            else if x1 = 13 ∧ x2 = 10 then qpDecode tail
            else
              match hexVal x1, hexVal x2 with
              | some v1, some v2 => (v1 * 16 + v2) :: qpDecode tail
              | _, _ => 61 :: qpDecode (x1 :: x2 :: tail)
        | [x1] => if x1 = 10 then qpDecode [] else 61 :: qpDecode [x1]
        | [] => 61 :: qpDecode []
      else b :: qpDecode rest

/-- Embeds `decode_transfer_encoding` (lines 202-211): a falsy encoding
(`None` or empty) passes the data through; otherwise dispatch on the
lowercased name, with every unrecognized name passing through. -/
def decode_transfer_encoding (data : List Nat) (encoding : Option String) :
    List Nat :=
  match encoding with
  | none => data
  | some e =>
      if e.isEmpty then data
      else
        match pyLower e with
        | "base64" => b64decode data
        | "quoted-printable" => qpDecode data
        | _ => data

/-! ## Message and part fetching

`IMAPClient` calls (`select_folder`, `search`, `fetch`) perform network
I/O; each call's outcome is supplied by an environment record, with `none`
standing for a raised exception (`CONNECTION_ERRORS` or any other). -/

/-- Embeds the frozen dataclass `Message` (line 63); `timestamp` is the
abstract value produced by `parsedate_to_datetime`. -/
structure Message where
  folder : String
  uid : Nat
  message_id : String
  subject : String
  sender : String
  timestamp : Nat
  body : Option MessagePartRef
  calendar_invites : List MessagePartRef
  attachments : List MessagePartRef
  in_reply_to : Option String
  references : List String
  deriving DecidableEq, Repr

/-- Embeds `parse_references` (lines 331-335): falsy input gives `[]`;
otherwise split on whitespace and keep the nonempty pieces. -/
def parse_references (blob : Option String) : List String :=
  match blob with
  | none => []
  | some s =>
      if s.isEmpty then []
      else (s.split Char.isWhitespace).filter (fun r => !r.isEmpty)

/-- The server data fetched for one UID: the parsed header dict
(lowercased keys, as produced by `parse_header`, lines 316-318) and the
`BODYSTRUCTURE` value. -/
structure FetchedMsgData where
  headers : String → Option String
  bodyStructure : BodyStructure

/-- The per-UID processing of the `fetch_messages` loop body
(lines 230-258): header lookups raise `KeyError` on a missing required
field and `parsedate_to_datetime` may raise (both modelled as `none`,
caught by the per-message `except`); the body is the largest html part if
any, else the largest plain part, else `None`.  `parseDate` abstracts
`parsedate_to_datetime`. -/
def processMessage (parseDate : String → Option Nat) (folder : String)
    (uid : Nat) (d : FetchedMsgData) : Option Message := do
  let mid ← d.headers "message-id"
  let subj ← d.headers "subject"
  let sender ← d.headers "from"
  let dateStr ← d.headers "date"
  let ts ← parseDate dateStr
  let parts := classify_parts folder uid d.bodyStructure
  let html_parts := parts.1
  let plain_parts := parts.2.1
  let calendar_parts := parts.2.2.1
  let attachment_parts := parts.2.2.2
  let body :=
    if !html_parts.isEmpty then choose_largest_part html_parts
    else if !plain_parts.isEmpty then choose_largest_part plain_parts
    else none
  some
    { folder := folder
      uid := uid
      message_id := mid
      subject := subj
      sender := sender
      timestamp := ts
      body := body
      calendar_invites := calendar_parts
      attachments := attachment_parts
      in_reply_to := d.headers "in-reply-to"
      references := parse_references (d.headers "references") }

/-- Outcomes of the three protocol calls made by `fetch_messages`:
`none` models a raised exception. -/
structure FetchEnv where
  selectOk : Bool
  searchResult : Option (List Nat)
  fetchResult : Option (List (Nat × FetchedMsgData))

/-- Embeds `fetch_messages` (lines 213-263): select the folder, search; a
zero-match search returns the empty list immediately; otherwise fetch the
headers and body structures and process each UID, where a per-message
failure skips only that message; an exception in select/search/fetch is
caught by the outer handler, which logs and returns `None`. -/
def fetch_messages (parseDate : String → Option Nat) (env : FetchEnv)
    (folder : String) : Option (List Message) :=
  if !env.selectOk then none
  else
    match env.searchResult with
    | none => none
    | some uids =>
        if uids.length = 0 then some []
        else
          match env.fetchResult with
          | none => none
          | some resp =>
              some
                (resp.foldl
                  (fun acc it =>
                    match processMessage parseDate folder it.1 it.2 with
                    | some m => acc ++ [m]
                    | none => acc)
                  [])

/-- Outcomes of the protocol calls made by `fetch_part_ref`: `respData`
models the nested `response[uid][key]` lookup, `none` being a `KeyError`
(UID or section gone). -/
structure PartFetchEnv where
  selectOk : Bool
  fetchOk : Bool
  respData : Nat → String → Option (List Nat)

/-- Embeds `fetch_part_ref` (lines 265-272): select the folder, fetch the
named section of the UID, decode its transfer encoding; any exception
(connection error, missing UID or section) is caught, logged and turns the
call's result into `None`. -/
def fetch_part_ref (env : PartFetchEnv) (part : MessagePartRef) :
    Option (List Nat) :=
  if !env.selectOk then none
  else if !env.fetchOk then none
  else
    match env.respData part.uid part.sect with
    | none => none
    | some data => some (decode_transfer_encoding data part.encoding)

/-- A concrete watcher state blocked in `idle_check`, stop flag unset. -/
def idlingState : WatcherState :=
  { running := true, phase := .idling, queue := mkIngestQueue, warnings := 0 }

/-- A fetch environment whose search matches no UIDs. -/
def envNoMatches : FetchEnv :=
  { selectOk := true, searchResult := some [], fetchResult := some [] }

/-- A fetch environment where the batch fetch raises a connection error. -/
def envFetchFails : FetchEnv :=
  { selectOk := true, searchResult := some [73958], fetchResult := none }

/-- A part-fetch environment where the requested UID/section is gone. -/
def envPartGone : PartFetchEnv :=
  { selectOk := true, fetchOk := true, respData := fun _ _ => none }

/-- A concrete part reference used to exercise `fetch_part_ref`. -/
def samplePartRef : MessagePartRef :=
  { folder := "INBOX", uid := 73958, sect := "2", content_type := "text/plain",
    encoding := none, filename := none, size := none, charset := none }

/-- Concrete parts exercising `choose_largest_part`: absent size. -/
def partSizeNone : MessagePartRef :=
  { samplePartRef with sect := "1", size := none }

/-- Concrete part of size 5. -/
def partSize5 : MessagePartRef :=
  { samplePartRef with sect := "2", size := some 5 }

/-- Concrete part of size 3. -/
def partSize3 : MessagePartRef :=
  { samplePartRef with sect := "3", size := some 3 }

/-- Another part with absent size. -/
def partSizeNoneB : MessagePartRef :=
  { samplePartRef with sect := "4", size := none }

/-- Another part with absent size. -/
def partSizeNoneC : MessagePartRef :=
  { samplePartRef with sect := "5", size := none }

/-- A plain-text leaf used to build concrete body structures. -/
def plainLeaf : LeafTuple :=
  { typ := "TEXT", subtype := "PLAIN", params := some ["CHARSET", "UTF-8"],
    encodingField := some "7BIT", sizeField := some 100,
    dispositionField := .pnone }

/-- The 2-level multipart `[[leaf, leaf], leaf]` of the spec's section
numbering example. -/
def bs2level : BodyStructure :=
  .multi [.multi [.leaf plainLeaf, .leaf plainLeaf], .leaf plainLeaf]

/-- A leaf with no text/html or text/plain content: an attached PNG. -/
def pngLeaf : LeafTuple :=
  { typ := "IMAGE", subtype := "PNG", params := none, encodingField := some "BASE64",
    sizeField := some 1024,
    dispositionField := .ptup "ATTACHMENT" (some ["FILENAME", "a.png"]) }

/-- Fetched data for one message whose body structure is a bare PNG leaf. -/
def sampleMsgData : FetchedMsgData :=
  { headers := fun k =>
      if k = "message-id" then some "<id-1>"
      else if k = "subject" then some "hello"
      else if k = "from" then some "a@b"
      else if k = "date" then some "Mon, 1 Jan 2024 00:00:00 +0000"
      else none,
    bodyStructure := .leaf pngLeaf }

/-- A date parser stub assigning timestamp 0 to every date string. -/
def pdZero : String → Option Nat := fun _ => some 0

/-- The `Message` that `fetch_messages` assembles from `sampleMsgData`. -/
def sampleMessage : Message :=
  { folder := "INBOX", uid := 1, message_id := "<id-1>", subject := "hello",
    sender := "a@b", timestamp := 0, body := none, calendar_invites := [],
    attachments := [mkPartRef "INBOX" 1 "TEXT" pngLeaf], in_reply_to := none,
    references := [] }

/-! # Theorems -/

theorem safe_put_nowait_mem (q : SignalQueue) (s x : ControlSignal)
    (h : x ∈ q.items) : x ∈ (safe_put_nowait q s).1.items := by
  unfold safe_put_nowait
  split
  · exact h
  · simpa using Or.inl h

theorem safe_put_nowait_self (q : SignalQueue) (s : ControlSignal)
    (h : q.isFull = false) : s ∈ (safe_put_nowait q s).1.items := by
  unfold safe_put_nowait
  rw [h]
  simp

theorem putFetch_mem (acc : SignalQueue × Nat) (r : IdleResp)
    (x : ControlSignal) (h : x ∈ acc.1.items) : x ∈ (putFetch acc r).1.items := by
  unfold putFetch
  rcases r with ⟨n, tag⟩
  cases tag with
  | rExists => exact h
  | rOther => exact h
  | rFetch payload => exact safe_put_nowait_mem _ _ _ h

theorem foldl_putFetch_mem (rs : List IdleResp) (acc : SignalQueue × Nat)
    (x : ControlSignal) (h : x ∈ acc.1.items) :
    x ∈ (rs.foldl putFetch acc).1.items := by
  induction rs generalizing acc with
  | nil => exact h
  | cons r rest ih => exact ih _ (putFetch_mem _ _ _ h)

theorem emitSignals_exists_mem (rs : List IdleResp) (q : SignalQueue) (w : Nat)
    (hex : rs.any IdleResp.isExists = true) (hfull : q.isFull = false) :
    ControlSignal.existsSig ∈ (emitSignals rs q w).1.items := by
  have hne : rs.isEmpty = false := by
    cases rs with
    | nil => simp at hex
    | cons a l => rfl
  unfold emitSignals
  rw [hne, hex]
  simp only [Bool.not_false, Bool.true_and, if_pos]
  exact foldl_putFetch_mem _ _ _ (safe_put_nowait_self _ _ hfull)

/-- C1: the claim is falsified at a concrete input: in the `Idling` state
with the stop flag unset, an untagged `EXISTS` response makes the watcher
emit `ControlSignal.Exists`, but the watcher stays in `Idling` — it does
not transition back to `Selecting` and the session is not torn down. -/
theorem claim_C1_counterexample :
    (idleManagerStep idlingState (.checked [⟨9484, .rExists⟩] false)).queue.items
        = [ControlSignal.existsSig] ∧
    (idleManagerStep idlingState (.checked [⟨9484, .rExists⟩] false)).phase
        = .idling ∧
    (idleManagerStep idlingState (.checked [⟨9484, .rExists⟩] false)).phase
        ≠ .selecting := by
  decide

/-- C1 (amended): for every untagged `EXISTS` response received while the
watcher is in the Idling state with the stop flag unset, the watcher emits
`ControlSignal.Exists` onto the signal queue without blocking and remains
in the Idling state: the current IDLE session is kept and the next wait
continues on the same session (no re-select is issued). -/
theorem claim_C1 (s : WatcherState) (rs : List IdleResp) (due : Bool)
    (hph : s.phase = .idling) (hrun : s.running = true)
    (hex : rs.any IdleResp.isExists = true) (hfull : s.queue.isFull = false) :
    (idleManagerStep s (.checked rs due)).phase = .idling ∧
    ControlSignal.existsSig ∈ (idleManagerStep s (.checked rs due)).queue.items := by
  have h1 : idleManagerStep s (.checked rs due) =
      { s with queue := (emitSignals rs s.queue s.warnings).1,
               warnings := (emitSignals rs s.queue s.warnings).2 } := by
    simp [idleManagerStep, hph, hrun]
  rw [h1]
  exact ⟨hph, emitSignals_exists_mem _ _ _ hex hfull⟩

theorem claim_C1_witness :
    (idleManagerStep idlingState (.checked [⟨9484, .rExists⟩] false)).phase
        = .idling ∧
    ControlSignal.existsSig ∈
      (idleManagerStep idlingState (.checked [⟨9484, .rExists⟩] false)).queue.items :=
  claim_C1 idlingState [⟨9484, .rExists⟩] false rfl rfl rfl (by decide)

/-- C2: the claim is falsified at the construction site: the queue built by
`IngestController.__init__` is `queue.Queue()` with the default
`maxsize=0`, i.e. unbounded; consequently a second `put` into the
constructed queue already holding one `Exists` signal does not drop it
(zero warnings, both signals retained). -/
theorem claim_C2_counterexample :
    mkIngestQueue.isBounded = false ∧
    (safe_put_nowait { mkIngestQueue with items := [ControlSignal.existsSig] }
        ControlSignal.existsSig).2 = 0 ∧
    (safe_put_nowait { mkIngestQueue with items := [ControlSignal.existsSig] }
        ControlSignal.existsSig).1.items
      = [ControlSignal.existsSig, ControlSignal.existsSig] := by
  decide

/-- C2 (amended): the signal queue is a FIFO whose capacity as constructed
is 0, meaning unbounded, so a put on the constructed queue never finds it
full: it appends the signal and logs no warning.  `safe_put_nowait` never
blocks or raises for any signal; on a queue with fixed capacity 1 already
holding one `Exists` signal, a second put drops the new signal, leaves the
queue unchanged and logs exactly one warning. -/
theorem claim_C2 :
    mkIngestQueue.maxsize = 0 ∧
    (∀ items : List ControlSignal,
      SignalQueue.isFull { maxsize := 0, items := items } = false) ∧
    (∀ (items : List ControlSignal) (s : ControlSignal),
      safe_put_nowait { maxsize := 0, items := items } s
        = ({ maxsize := 0, items := items ++ [s] }, 0)) ∧
    safe_put_nowait { maxsize := 1, items := [ControlSignal.existsSig] }
        ControlSignal.existsSig
      = ({ maxsize := 1, items := [ControlSignal.existsSig] }, 1) := by
  refine ⟨rfl, fun items => ?_, fun items s => ?_, by decide⟩
  · simp [SignalQueue.isFull]
  · simp [safe_put_nowait, SignalQueue.isFull]

/-- C5: after a connection-class error during the IDLE loop, the watcher
reconnects and resumes the full cycle if and only if no stop has been
requested: with `_running` set it moves to `Disconnected` without the
worker terminating and the next connection brings it back to `Selecting`;
with `_running` cleared (shutdown-induced forced close) it terminates
without reconnecting. -/
theorem claim_C5 (s : WatcherState) (hph : s.phase ≠ .stopped) :
    (s.running = true →
      (idleManagerStep s .connError).phase = .disconnected ∧
      (idleManagerStep s .connError).running = true ∧
      (idleManagerStep (idleManagerStep s .connError) .connected).phase
        = .selecting) ∧
    (s.running = false → (idleManagerStep s .connError).phase = .stopped) := by
  constructor
  · intro hrun
    have h1 : idleManagerStep s .connError = { s with phase := .disconnected } := by
      simp [idleManagerStep, hph, hrun]
    rw [h1]
    refine ⟨rfl, hrun, ?_⟩
    simp [idleManagerStep, hrun]
  · intro hrun
    simp [idleManagerStep, hph, hrun]

theorem claim_C5_witness :
    (idleManagerStep idlingState .connError).phase = .disconnected ∧
    (idleManagerStep idlingState .connError).running = true ∧
    (idleManagerStep (idleManagerStep idlingState .connError) .connected).phase
      = .selecting :=
  (claim_C5 idlingState (by decide)).1 rfl

/-- C3: `fetch_messages` returns the empty list (not an error) when the
search yields zero UIDs, while a failure in select, search, or the batch
fetch aborts the whole call with the error outcome `none`, never the empty
list. -/
theorem claim_C3 (pd : String → Option Nat) (env : FetchEnv) (folder : String) :
    (env.selectOk = true → env.searchResult = some [] →
      fetch_messages pd env folder = some []) ∧
    (env.selectOk = false → fetch_messages pd env folder = none) ∧
    (env.searchResult = none → fetch_messages pd env folder = none) ∧
    (∀ uids, env.selectOk = true → env.searchResult = some uids → uids ≠ [] →
      env.fetchResult = none → fetch_messages pd env folder = none) := by
  refine ⟨?_, ?_, ?_, ?_⟩
  · intro hs hq
    simp [fetch_messages, hs, hq]
  · intro hs
    simp [fetch_messages, hs]
  · intro hq
    cases hs : env.selectOk <;> simp [fetch_messages, hs, hq]
  · intro uids hs hq hne hf
    have hlen : uids.length ≠ 0 := by
      simpa [List.length_eq_zero] using hne
    simp [fetch_messages, hs, hq, hlen, hf]

theorem claim_C3_witness :
    fetch_messages (fun _ => none) envNoMatches "INBOX" = some [] ∧
    fetch_messages (fun _ => none) envFetchFails "INBOX" = none :=
  ⟨(claim_C3 (fun _ => none) envNoMatches "INBOX").1 rfl rfl,
   (claim_C3 (fun _ => none) envFetchFails "INBOX").2.2.2 [73958] rfl rfl
     (by decide) rfl⟩

/-- C4: when the part's UID or section no longer exists on the server (the
fetch response lookup raises `KeyError`), `fetch_part_ref` yields the error
outcome `none` for that call, never a non-error bytes value. -/
theorem claim_C4 (env : PartFetchEnv) (part : MessagePartRef)
    (h : env.respData part.uid part.sect = none) :
    fetch_part_ref env part = none := by
  cases hs : env.selectOk <;> cases hf : env.fetchOk <;>
    simp [fetch_part_ref, hs, hf, h]

theorem claim_C4_witness :
    fetch_part_ref envPartGone samplePartRef = none :=
  claim_C4 envPartGone samplePartRef rfl

/-- C10: a body structure whose top level is not multipart yields exactly
one part from the walk, with the literal section string "TEXT" rather than
a dotted numeric path; accordingly every `MessagePartRef` classified out of
a single-leaf message carries section "TEXT". -/
theorem claim_C10 :
    (∀ t, iter_leaf_parts (.leaf t) "" = [("TEXT", t)]) ∧
    (∀ (folder : String) (uid : Nat) (t : LeafTuple),
      ((classify_parts folder uid (.leaf t)).1 ++
        (classify_parts folder uid (.leaf t)).2.1 ++
        (classify_parts folder uid (.leaf t)).2.2.1 ++
        (classify_parts folder uid (.leaf t)).2.2.2).all
          (fun r => r.sect == "TEXT") = true) := by
  constructor
  · intro t
    rfl
  · intro folder uid t
    have h0 : iter_leaf_parts (.leaf t) "" = [("TEXT", t)] := rfl
    simp only [classify_parts, h0, List.foldl_cons, List.foldl_nil, classifyStep]
    split_ifs <;> simp_all [mkPartRef]

theorem mkPartRef_content_type (folder : String) (uid : Nat) (sect : String)
    (t : LeafTuple) : (mkPartRef folder uid sect t).content_type = leafContentType t :=
  rfl

theorem foldl_classifyStep_eq (folder : String) (uid : Nat)
    (leaves : List (String × LeafTuple)) (acc : Classified) :
    leaves.foldl (classifyStep folder uid) acc =
      (acc.1 ++ (leaves.filter fun sp => leafContentType sp.2 = "text/html").map
          (fun sp => mkPartRef folder uid sp.1 sp.2),
       acc.2.1 ++ (leaves.filter fun sp => leafContentType sp.2 = "text/plain").map
          (fun sp => mkPartRef folder uid sp.1 sp.2),
       acc.2.2.1 ++ (leaves.filter fun sp => leafContentType sp.2 = "text/calendar").map
          (fun sp => mkPartRef folder uid sp.1 sp.2),
       acc.2.2.2 ++ (leaves.filter fun sp => isAttachmentLeaf sp.2).map
          (fun sp => mkPartRef folder uid sp.1 sp.2)) := by
  induction leaves generalizing acc with
  | nil => simp
  | cons sp rest ih =>
    rw [List.foldl_cons, ih]
    rcases acc with ⟨hl, pl, cl, al⟩
    simp only [classifyStep, mkPartRef_content_type]
    rcases eq_or_ne (leafContentType sp.2) "text/html" with h1 | h1
    · have h2 : leafContentType sp.2 ≠ "text/plain" := by rw [h1]; decide
      have h3 : leafContentType sp.2 ≠ "text/calendar" := by rw [h1]; decide
      by_cases h4 : isAttachmentLeaf sp.2 <;>
        simp [h1, h2, h3, h4, List.filter_cons]
    · rcases eq_or_ne (leafContentType sp.2) "text/plain" with h2 | h2
      · have h3 : leafContentType sp.2 ≠ "text/calendar" := by rw [h2]; decide
        by_cases h4 : isAttachmentLeaf sp.2 <;>
          simp [h1, h2, h3, h4, List.filter_cons]
      · rcases eq_or_ne (leafContentType sp.2) "text/calendar" with h3 | h3
        · by_cases h4 : isAttachmentLeaf sp.2 <;>
            simp [h1, h2, h3, h4, List.filter_cons]
        · by_cases h4 : isAttachmentLeaf sp.2 <;>
            simp [h1, h2, h3, h4, List.filter_cons]

/-- C6: for every leaf of a body structure, the classifier routes it to
`html` iff its lowercased content type equals "text/html", to `plain` iff
"text/plain", to `calendar` iff "text/calendar" (stated as: each bucket is
exactly the filter of the walked leaves on that content type), and to
`attachments` iff the disposition is "attachment" or it is "inline" with a
filename present (`isAttachmentLeaf`); consequently each leaf lands in at
most two of the four buckets. -/
theorem claim_C6 (folder : String) (uid : Nat) (bs : BodyStructure) :
    ((classify_parts folder uid bs).1 =
      ((iter_leaf_parts bs "").filter fun sp => leafContentType sp.2 = "text/html").map
        (fun sp => mkPartRef folder uid sp.1 sp.2)) ∧
    ((classify_parts folder uid bs).2.1 =
      ((iter_leaf_parts bs "").filter fun sp => leafContentType sp.2 = "text/plain").map
        (fun sp => mkPartRef folder uid sp.1 sp.2)) ∧
    ((classify_parts folder uid bs).2.2.1 =
      ((iter_leaf_parts bs "").filter fun sp => leafContentType sp.2 = "text/calendar").map
        (fun sp => mkPartRef folder uid sp.1 sp.2)) ∧
    ((classify_parts folder uid bs).2.2.2 =
      ((iter_leaf_parts bs "").filter fun sp => isAttachmentLeaf sp.2).map
        (fun sp => mkPartRef folder uid sp.1 sp.2)) ∧
    (∀ t : LeafTuple, leafBucketCount t ≤ 2) := by
  refine ⟨?_, ?_, ?_, ?_, ?_⟩
  · simp [classify_parts, foldl_classifyStep_eq]
  · simp [classify_parts, foldl_classifyStep_eq]
  · simp [classify_parts, foldl_classifyStep_eq]
  · simp [classify_parts, foldl_classifyStep_eq]
  · intro t
    unfold leafBucketCount
    rcases eq_or_ne (leafContentType t) "text/html" with h1 | h1
    · have h2 : leafContentType t ≠ "text/plain" := by rw [h1]; decide
      have h3 : leafContentType t ≠ "text/calendar" := by rw [h1]; decide
      rw [if_pos h1, if_neg h2, if_neg h3]
      split_ifs <;> omega
    · rcases eq_or_ne (leafContentType t) "text/plain" with h2 | h2
      · have h3 : leafContentType t ≠ "text/calendar" := by rw [h2]; decide
        rw [if_neg h1, if_pos h2, if_neg h3]
        split_ifs <;> omega
      · rw [if_neg h1, if_neg h2]
        split_ifs <;> omega

theorem choose_foldl_le (xs : List MessagePartRef) (b : MessagePartRef) :
    sizeKey b ≤
        sizeKey (xs.foldl (fun best m => if sizeKey m > sizeKey best then m else best) b) ∧
      ∀ p ∈ xs,
        sizeKey p ≤
          sizeKey (xs.foldl (fun best m => if sizeKey m > sizeKey best then m else best) b) := by
  induction xs generalizing b with
  | nil => simp
  | cons m rest ih =>
    simp only [List.foldl_cons]
    have hb : sizeKey b ≤ sizeKey (if sizeKey m > sizeKey b then m else b) := by
      split_ifs with h
      · exact le_of_lt h
      · exact le_refl _
    have hm : sizeKey m ≤ sizeKey (if sizeKey m > sizeKey b then m else b) := by
      split_ifs with h
      · exact le_refl _
      · omega
    refine ⟨le_trans hb (ih _).1, ?_⟩
    intro p hp
    rcases List.mem_cons.mp hp with hp | hp
    · subst hp
      exact le_trans hm (ih _).1
    · exact (ih _).2 p hp

theorem choose_largest_part_le (parts : List MessagePartRef) (r : MessagePartRef)
    (h : choose_largest_part parts = some r) : ∀ p ∈ parts, sizeKey p ≤ sizeKey r := by
  cases parts with
  | nil => simp [choose_largest_part] at h
  | cons x xs =>
    simp only [choose_largest_part, Option.some.injEq] at h
    subst h
    intro p hp
    rcases List.mem_cons.mp hp with hp | hp
    · subst hp
      exact (choose_foldl_le xs p).1
    · exact (choose_foldl_le xs x).2 p hp

/-- C8: the selected body is the largest text/html part if any exist, else
the largest text/plain part, else `None`: hence `Message.body` is `None`
iff no text/html or text/plain leaf exists anywhere in the structure.
`choose_largest_part` treats an absent size as 0, always returns a part of
a nonempty list (even all-`None` sizes), returns a part of maximal size
key, and on sizes `[None, 5, 3]` returns the part with size 5. -/
theorem claim_C8 :
    (∀ (pd : String → Option Nat) (folder : String) (uid : Nat)
        (d : FetchedMsgData) (m : Message),
      processMessage pd folder uid d = some m →
      (m.body = none ↔ ∀ sp ∈ iter_leaf_parts d.bodyStructure "",
          leafContentType sp.2 ≠ "text/html" ∧ leafContentType sp.2 ≠ "text/plain")) ∧
    (∀ (x : MessagePartRef) (xs : List MessagePartRef),
      (choose_largest_part (x :: xs)).isSome = true) ∧
    (∀ (parts : List MessagePartRef) (r : MessagePartRef),
      choose_largest_part parts = some r → ∀ p ∈ parts, sizeKey p ≤ sizeKey r) ∧
    choose_largest_part [partSizeNone, partSize5, partSize3] = some partSize5 ∧
    choose_largest_part [partSizeNone, partSizeNoneB, partSizeNoneC]
      = some partSizeNone := by
  refine ⟨?_, ?_, choose_largest_part_le, by decide, by decide⟩
  · intro pd folder uid d m h
    simp only [processMessage, Option.bind_eq_bind, Option.bind_eq_some] at h
    obtain ⟨mid, hmid, subj, hsubj, sender, hsender, dateStr, hdate, ts, hts, hm⟩ := h
    rw [Option.some.injEq] at hm
    subst hm
    have hhtml : (classify_parts folder uid d.bodyStructure).1 =
        ((iter_leaf_parts d.bodyStructure "").filter
            fun sp => leafContentType sp.2 = "text/html").map
          (fun sp => mkPartRef folder uid sp.1 sp.2) := by
      simp [classify_parts, foldl_classifyStep_eq]
    have hplain : (classify_parts folder uid d.bodyStructure).2.1 =
        ((iter_leaf_parts d.bodyStructure "").filter
            fun sp => leafContentType sp.2 = "text/plain").map
          (fun sp => mkPartRef folder uid sp.1 sp.2) := by
      simp [classify_parts, foldl_classifyStep_eq]
    simp only [hhtml, hplain]
    cases hfh : ((iter_leaf_parts d.bodyStructure "").filter
        fun sp => leafContentType sp.2 = "text/html") with
    | cons a l =>
      have hmem : a ∈ ((iter_leaf_parts d.bodyStructure "").filter
          fun sp => leafContentType sp.2 = "text/html") := by
        rw [hfh]
        exact List.mem_cons_self a l
      obtain ⟨ha, hct⟩ := List.mem_filter.mp hmem
      constructor
      · intro hnone
        simp [choose_largest_part] at hnone
      · intro hall
        exact absurd (of_decide_eq_true hct) (hall a ha).1
    | nil =>
      cases hfp : ((iter_leaf_parts d.bodyStructure "").filter
          fun sp => leafContentType sp.2 = "text/plain") with
      | cons a l =>
        have hmem : a ∈ ((iter_leaf_parts d.bodyStructure "").filter
            fun sp => leafContentType sp.2 = "text/plain") := by
          rw [hfp]
          exact List.mem_cons_self a l
        obtain ⟨ha, hct⟩ := List.mem_filter.mp hmem
        constructor
        · intro hnone
          simp [choose_largest_part] at hnone
        · intro hall
          exact absurd (of_decide_eq_true hct) (hall a ha).2
      | nil =>
        constructor
        · intro _ sp hsp
          have h1 := List.filter_eq_nil_iff.mp hfh sp hsp
          have h2 := List.filter_eq_nil_iff.mp hfp sp hsp
          simp only [decide_eq_true_eq] at h1 h2
          exact ⟨h1, h2⟩
        · intro _
          simp
  · intro x xs
    simp [choose_largest_part]

theorem b64Val_b64Code : ∀ v : Nat, v < 64 → b64Val (b64Code v) = some v := by
  decide

theorem b64Code_ne_61 : ∀ v : Nat, v < 64 → b64Code v ≠ 61 := by
  decide

theorem b64_decode_encode :
    ∀ x : List Nat, (∀ b ∈ x, b < 256) → b64decode (b64encode x) = x
  | [], _ => rfl
  | [b0], h => by
      have hb0 : b0 < 256 := h b0 (by simp)
      have h0 : b0 * 65536 / 262144 < 64 := by omega
      have h1 : b0 * 65536 / 4096 % 64 < 64 := by omega
      have e0 := b64Val_b64Code _ h0
      have e1 := b64Val_b64Code _ h1
      simp [b64encode, b64decode, e0, e1]
      omega
  | [b0, b1], h => by
      have hb0 : b0 < 256 := h b0 (by simp)
      have hb1 : b1 < 256 := h b1 (by simp)
      have h0 : (b0 * 65536 + b1 * 256) / 262144 < 64 := by omega
      have h1 : (b0 * 65536 + b1 * 256) / 4096 % 64 < 64 := by omega
      have h2 : (b0 * 65536 + b1 * 256) / 64 % 64 < 64 := by omega
      have e0 := b64Val_b64Code _ h0
      have e1 := b64Val_b64Code _ h1
      have e2 := b64Val_b64Code _ h2
      have n2 := b64Code_ne_61 _ h2
      simp [b64encode, b64decode, e0, e1, e2, n2]
      omega
  | b0 :: b1 :: b2 :: rest, h => by
      have hb0 : b0 < 256 := h b0 (by simp)
      have hb1 : b1 < 256 := h b1 (by simp)
      have hb2 : b2 < 256 := h b2 (by simp)
      have ih := b64_decode_encode rest (fun y hy => h y (by simp [hy]))
      have h0 : (b0 * 65536 + b1 * 256 + b2) / 262144 < 64 := by omega
      have h1 : (b0 * 65536 + b1 * 256 + b2) / 4096 % 64 < 64 := by omega
      have h2 : (b0 * 65536 + b1 * 256 + b2) / 64 % 64 < 64 := by omega
      have h3 : (b0 * 65536 + b1 * 256 + b2) % 64 < 64 := by omega
      have e0 := b64Val_b64Code _ h0
      have e1 := b64Val_b64Code _ h1
      have e2 := b64Val_b64Code _ h2
      have e3 := b64Val_b64Code _ h3
      have n2 := b64Code_ne_61 _ h2
      have n3 := b64Code_ne_61 _ h3
      simp [b64encode, b64decode, e0, e1, e2, e3, n2, n3, ih]
      refine ⟨by omega, by omega, by omega⟩

theorem hexVal_hexCode : ∀ v : Nat, v < 16 → hexVal (hexCode v) = some v := by
  decide

theorem hexVal_ten : hexVal 10 = none := by
  decide

theorem hexVal_thirteen : hexVal 13 = none := by
  decide

theorem qpDecode_lit (b : Nat) (rest : List Nat) (hb : b ≠ 61) :
    qpDecode (b :: rest) = b :: qpDecode rest := by
  rw [qpDecode.eq_def]
  simp only [if_neg hb]

theorem qpDecode_soft (rest : List Nat) :
    qpDecode (61 :: 10 :: rest) = qpDecode rest := by
  cases rest with
  | nil => simp [qpDecode]
  | cons x tail => simp [qpDecode]

theorem qpDecode_esc (h1 h2 : Nat) (rest : List Nat) (v1 v2 : Nat)
    (hv1 : hexVal h1 = some v1) (hv2 : hexVal h2 = some v2) :
    qpDecode (61 :: h1 :: h2 :: rest) = (v1 * 16 + v2) :: qpDecode rest := by
  have hn1 : h1 ≠ 10 := by
    intro hc
    rw [hc, hexVal_ten] at hv1
    exact Option.noConfusion hv1
  have hn13 : ¬(h1 = 13 ∧ h2 = 10) := by
    rintro ⟨hc, _⟩
    rw [hc, hexVal_thirteen] at hv1
    exact Option.noConfusion hv1
  simp only [qpDecode, if_pos rfl, if_neg hn1, if_neg hn13, hv1, hv2, if_true]

theorem qp_decode_encode_aux :
    ∀ (x : List Nat) (col : Nat), (∀ b ∈ x, b < 256) →
      qpDecode (qpEncodeAux x col) = x
  | [], _, _ => rfl
  | b :: rest, col, h => by
      have hb : b < 256 := h b (by simp)
      have ih : ∀ c, qpDecode (qpEncodeAux rest c) = rest := fun c =>
        qp_decode_encode_aux rest c (fun y hy => h y (by simp [hy]))
      by_cases h10 : b = 10
      · subst h10
        rw [show qpEncodeAux (10 :: rest) col = 10 :: qpEncodeAux rest 0 from by
          simp [qpEncodeAux]]
        rw [qpDecode_lit 10 _ (by omega), ih]
      · by_cases hsafe : isQpSafe b
        · have hb61 : b ≠ 61 := by
            simp only [isQpSafe, Bool.or_eq_true, Bool.and_eq_true, decide_eq_true_eq,
              bne_iff_ne] at hsafe
            rcases hsafe with (⟨⟨_, _⟩, hne⟩ | h32 | h9) <;> omega
          simp only [qpEncodeAux, if_neg h10, if_pos hsafe]
          by_cases hcol : col + 1 > 75
          · rw [if_pos hcol, qpDecode_soft, qpDecode_lit b _ hb61, ih]
          · rw [if_neg hcol, qpDecode_lit b _ hb61, ih]
        · have hv1 : hexVal (hexCode (b / 16)) = some (b / 16) :=
            hexVal_hexCode _ (by omega)
          have hv2 : hexVal (hexCode (b % 16)) = some (b % 16) :=
            hexVal_hexCode _ (by omega)
          have hrec : b / 16 * 16 + b % 16 = b := by omega
          simp only [qpEncodeAux, if_neg h10, if_neg hsafe]
          by_cases hcol : col + 3 > 75
          · rw [if_pos hcol, qpDecode_soft]
            simp only [qpByte, List.cons_append, List.nil_append]
            rw [qpDecode_esc _ _ _ _ _ hv1 hv2, ih, hrec]
          · rw [if_neg hcol]
            simp only [qpByte, List.cons_append, List.nil_append]
            rw [qpDecode_esc _ _ _ _ _ hv1 hv2, ih, hrec]

/-- C9: transfer decoding inverts encoding for the two supported schemes
and is the identity otherwise: decoding a base64 encoding or a
quoted-printable encoding recovers the original bytes, and any encoding
name other than "base64"/"quoted-printable" (after lowercasing), as well
as an absent encoding, returns the input unchanged. -/
theorem claim_C9 :
    (∀ x : List Nat, (∀ b ∈ x, b < 256) →
      decode_transfer_encoding (b64encode x) (some "base64") = x) ∧
    (∀ x : List Nat, (∀ b ∈ x, b < 256) →
      decode_transfer_encoding (qpEncode x) (some "quoted-printable") = x) ∧
    (∀ (data : List Nat) (e : String), pyLower e ≠ "base64" →
      pyLower e ≠ "quoted-printable" → decode_transfer_encoding data (some e) = data) ∧
    (∀ data : List Nat, decode_transfer_encoding data none = data) := by
  refine ⟨?_, ?_, ?_, fun data => rfl⟩
  · intro x hx
    show b64decode (b64encode x) = x
    exact b64_decode_encode x hx
  · intro x hx
    show qpDecode (qpEncodeAux x 0) = x
    exact qp_decode_encode_aux x 0 hx
  · intro data e h1 h2
    unfold decode_transfer_encoding
    split
    · rfl
    · split <;> simp_all

theorem claim_C9_witness :
    decode_transfer_encoding (b64encode [77, 97, 110]) (some "base64")
        = [77, 97, 110] ∧
    decode_transfer_encoding (qpEncode [72, 61, 10, 255]) (some "quoted-printable")
        = [72, 61, 10, 255] ∧
    decode_transfer_encoding [1, 2, 3] (some "7bit") = [1, 2, 3] :=
  ⟨claim_C9.1 [77, 97, 110] (by decide),
   claim_C9.2.1 [72, 61, 10, 255] (by decide),
   claim_C9.2.2.1 [1, 2, 3] "7bit" (by decide) (by decide)⟩

theorem digitChar_isDigit : ∀ n : Nat, n < 10 → (Nat.digitChar n).isDigit = true := by
  decide

theorem digitChar_inj :
    ∀ a < 10, ∀ b < 10, Nat.digitChar a = Nat.digitChar b → a = b := by
  decide

theorem natChars_ne_nil (n : Nat) : natChars n ≠ [] := by
  unfold natChars
  split <;> simp

theorem natChars_digit : ∀ n : Nat, ∀ c ∈ natChars n, c.isDigit = true := by
  intro n
  induction n using Nat.strong_induction_on with
  | _ n ih =>
    intro c hc
    unfold natChars at hc
    split at hc
    · simp only [List.mem_singleton] at hc
      subst hc
      exact digitChar_isDigit n (by omega)
    · rcases List.mem_append.mp hc with h | h
      · exact ih (n / 10) (by omega) c h
      · simp only [List.mem_singleton] at h
        subst h
        exact digitChar_isDigit _ (by omega)

theorem natChars_inj : ∀ m n : Nat, natChars m = natChars n → m = n := by
  intro m
  induction m using Nat.strong_induction_on with
  | _ m ih =>
    intro n h
    unfold natChars at h
    rcases Nat.lt_or_ge m 10 with hm | hm <;> rcases Nat.lt_or_ge n 10 with hn | hn
    · rw [dif_pos hm, dif_pos hn] at h
      simp only [List.cons.injEq, and_true] at h
      exact digitChar_inj _ hm _ hn h
    · rw [dif_pos hm, dif_neg (by omega)] at h
      exfalso
      rcases hnil : natChars (n / 10) with _ | ⟨c, cs⟩
      · exact natChars_ne_nil (n / 10) hnil
      · rw [hnil] at h
        simp at h
    · rw [dif_neg (by omega), dif_pos hn] at h
      exfalso
      rcases hnil : natChars (m / 10) with _ | ⟨c, cs⟩
      · exact natChars_ne_nil (m / 10) hnil
      · rw [hnil] at h
        simp at h
    · rw [dif_neg (by omega), dif_neg (by omega)] at h
      have h2 := congrArg List.reverse h
      simp only [List.reverse_append, List.reverse_cons, List.reverse_nil,
        List.nil_append, List.singleton_append, List.cons.injEq,
        List.reverse_inj] at h2
      have e1 := digitChar_inj _ (by omega) _ (by omega) h2.1
      have e2 := ih (m / 10) (by omega) (n / 10) h2.2
      omega

theorem foldl_dot_data (r : List Nat) (s : String) :
    (r.foldl (fun acc i => acc ++ "." ++ natStr i) s).data = s.data ++ dotsChunks r := by
  induction r generalizing s with
  | nil => simp [dotsChunks]
  | cons i t ih =>
    simp only [List.foldl_cons, dotsChunks]
    rw [ih]
    simp [String.data_append, show (".").data = ['.'] from rfl,
      show ∀ k, (natStr k).data = natChars k from fun _ => rfl]

theorem renderPath_data (a : Nat) (t : List Nat) :
    (renderPath (a :: t)).data = natChars a ++ dotsChunks t := by
  simp only [renderPath]
  rw [foldl_dot_data]
  rfl

theorem renderPath_ne_empty (a : Nat) (t : List Nat) : renderPath (a :: t) ≠ "" := by
  intro h
  have hd := congrArg String.data h
  rw [renderPath_data] at hd
  simp only [show ("" : String).data = [] from rfl, List.append_eq_nil] at hd
  exact natChars_ne_nil a hd.1

theorem renderPath_isEmpty (p : List Nat) : (renderPath p).isEmpty = p.isEmpty := by
  cases p with
  | nil => rfl
  | cons a t =>
    have h2 : (renderPath (a :: t)).isEmpty ≠ true := by
      intro hcontra
      exact renderPath_ne_empty a t ((String.isEmpty_iff _).mp hcontra)
    simp only [List.isEmpty_cons]
    exact Bool.eq_false_iff.mpr h2

theorem token_split : ∀ xs xs' ys ys' : List Char,
    (∀ c ∈ xs, c ≠ '.') → (∀ c ∈ xs', c ≠ '.') →
    (ys = [] ∨ ∃ t, ys = '.' :: t) → (ys' = [] ∨ ∃ t, ys' = '.' :: t) →
    xs ++ ys = xs' ++ ys' → xs = xs' ∧ ys = ys' := by
  intro xs
  induction xs with
  | nil =>
    intro xs' ys ys' _ hx' hy _ heq
    cases xs' with
    | nil => exact ⟨rfl, by simpa using heq⟩
    | cons a t =>
      exfalso
      have ha : a ≠ '.' := hx' a (by simp)
      simp only [List.nil_append, List.cons_append] at heq
      rcases hy with h | ⟨u, h⟩
      · rw [h] at heq
        exact List.noConfusion heq
      · rw [h] at heq
        simp only [List.cons.injEq] at heq
        exact ha heq.1.symm
  | cons a t ih =>
    intro xs' ys ys' hx hx' hy hy' heq
    cases xs' with
    | nil =>
      exfalso
      have ha : a ≠ '.' := hx a (by simp)
      simp only [List.nil_append, List.cons_append] at heq
      rcases hy' with h | ⟨u, h⟩
      · rw [h] at heq
        exact List.noConfusion heq
      · rw [h] at heq
        simp only [List.cons.injEq] at heq
        exact ha heq.1
    | cons a' t' =>
      simp only [List.cons_append, List.cons.injEq] at heq
      obtain ⟨h1, h2⟩ := heq
      obtain ⟨h3, h4⟩ := ih t' ys ys' (fun c hc => hx c (by simp [hc]))
        (fun c hc => hx' c (by simp [hc])) hy hy' h2
      exact ⟨by rw [h1, h3], h4⟩

theorem natChars_no_dot (n : Nat) : ∀ c ∈ natChars n, c ≠ '.' := by
  intro c hc h
  have hd := natChars_digit n c hc
  rw [h] at hd
  exact absurd hd (by decide)

theorem dotsChunks_shape (r : List Nat) :
    dotsChunks r = [] ∨ ∃ t, dotsChunks r = '.' :: t := by
  cases r with
  | nil => exact Or.inl rfl
  | cons i t => exact Or.inr ⟨_, rfl⟩

theorem dotsChunks_inj : ∀ r r' : List Nat, dotsChunks r = dotsChunks r' → r = r' := by
  intro r
  induction r with
  | nil =>
    intro r' h
    cases r' with
    | nil => rfl
    | cons i t => simp [dotsChunks] at h
  | cons i t ih =>
    intro r' h
    cases r' with
    | nil => simp [dotsChunks] at h
    | cons i' t' =>
      simp only [dotsChunks] at h
      injection h with h1 h2
      obtain ⟨e1, e2⟩ := token_split _ _ _ _ (natChars_no_dot i) (natChars_no_dot i')
        (dotsChunks_shape t) (dotsChunks_shape t') h2
      rw [natChars_inj _ _ e1, ih t' e2]

theorem renderPath_inj (p q : List Nat) (hp : p ≠ []) (hq : q ≠ [])
    (h : renderPath p = renderPath q) : p = q := by
  cases p with
  | nil => exact absurd rfl hp
  | cons a t =>
    cases q with
    | nil => exact absurd rfl hq
    | cons b u =>
      have hd := congrArg String.data h
      rw [renderPath_data, renderPath_data] at hd
      obtain ⟨e1, e2⟩ := token_split _ _ _ _ (natChars_no_dot a) (natChars_no_dot b)
        (dotsChunks_shape t) (dotsChunks_shape u) hd
      rw [natChars_inj _ _ e1, dotsChunks_inj _ _ e2]

theorem renderPath_append_one (p : List Nat) (i : Nat) :
    renderPath (p ++ [i])
      = if p.isEmpty then natStr i else renderPath p ++ "." ++ natStr i := by
  cases p with
  | nil => rfl
  | cons a t => simp [renderPath, List.foldl_append]

mutual

theorem iter_eq_paths : ∀ (bs : BodyStructure) (p : List Nat),
    iter_leaf_parts bs (renderPath p)
      = (leafPaths bs p).map (fun q => (sectionOfPath q.1, q.2))
  | .leaf t, p => by
      simp [iter_leaf_parts, leafPaths, sectionOfPath, renderPath_isEmpty]
  | .multi cs, p => by
      simp only [iter_leaf_parts, leafPaths]
      exact iterChildren_eq cs p 1

theorem iterChildren_eq : ∀ (cs : List BodyStructure) (p : List Nat) (i : Nat),
    iterChildren cs (renderPath p) i
      = (leafPathsChildren cs p i).map (fun q => (sectionOfPath q.1, q.2))
  | [], _, _ => rfl
  | c :: rest, p, i => by
      simp only [iterChildren, leafPathsChildren, List.map_append]
      have hs : (if (renderPath p).isEmpty then natStr i
            else renderPath p ++ "." ++ natStr i) = renderPath (p ++ [i]) := by
        rw [renderPath_append_one, renderPath_isEmpty]
      rw [hs]
      congr 1
      · exact iter_eq_paths c (p ++ [i])
      · exact iterChildren_eq rest p (i + 1)

end

mutual

theorem leafPaths_ext : ∀ (bs : BodyStructure) (p : List Nat) (x : List Nat × LeafTuple),
    x ∈ leafPaths bs p → ∃ s, x.1 = p ++ s
  | .leaf t, p, x, hx => by
      simp only [leafPaths, List.mem_singleton] at hx
      exact ⟨[], by rw [hx]; simp⟩
  | .multi cs, p, x, hx => by
      simp only [leafPaths] at hx
      obtain ⟨j, s, _, hjs⟩ := leafPathsChildren_ext cs p 1 x hx
      exact ⟨j :: s, hjs⟩

theorem leafPathsChildren_ext :
    ∀ (cs : List BodyStructure) (p : List Nat) (i : Nat) (x : List Nat × LeafTuple),
      x ∈ leafPathsChildren cs p i → ∃ j s, i ≤ j ∧ x.1 = p ++ j :: s
  | [], _, _, x, hx => by simp [leafPathsChildren] at hx
  | c :: rest, p, i, x, hx => by
      simp only [leafPathsChildren, List.mem_append] at hx
      rcases hx with hx | hx
      · obtain ⟨s, hs⟩ := leafPaths_ext c (p ++ [i]) x hx
        exact ⟨i, s, le_refl i, by rw [hs]; simp⟩
      · obtain ⟨j, s, hij, hjs⟩ := leafPathsChildren_ext rest p (i + 1) x hx
        exact ⟨j, s, by omega, hjs⟩

end

mutual

theorem leafPaths_nodup : ∀ (bs : BodyStructure) (p : List Nat),
    ((leafPaths bs p).map Prod.fst).Nodup
  | .leaf t, p => by simp [leafPaths]
  | .multi cs, p => by
      simp only [leafPaths]
      exact leafPathsChildren_nodup cs p 1

theorem leafPathsChildren_nodup : ∀ (cs : List BodyStructure) (p : List Nat) (i : Nat),
    ((leafPathsChildren cs p i).map Prod.fst).Nodup
  | [], _, _ => by simp [leafPathsChildren]
  | c :: rest, p, i => by
      simp only [leafPathsChildren, List.map_append]
      refine List.Nodup.append (leafPaths_nodup c (p ++ [i]))
        (leafPathsChildren_nodup rest p (i + 1)) ?_
      intro q hq1 hq2
      obtain ⟨x, hx, hxq⟩ := List.mem_map.mp hq1
      obtain ⟨y, hy, hyq⟩ := List.mem_map.mp hq2
      obtain ⟨s, hs⟩ := leafPaths_ext c (p ++ [i]) x hx
      obtain ⟨j, s', hij, hjs⟩ := leafPathsChildren_ext rest p (i + 1) y hy
      have hpq : p ++ i :: s = p ++ j :: s' := by
        calc p ++ i :: s = (p ++ [i]) ++ s := by simp
        _ = x.1 := hs.symm
        _ = q := hxq
        _ = y.1 := hyq.symm
        _ = p ++ j :: s' := hjs
      have h2 := List.append_cancel_left hpq
      simp only [List.cons.injEq] at h2
      omega

end

/-- C7: section paths of a body-structure walk are dotted 1-based indices
in depth-first order and are unique within one walk: the 2-level multipart
`[[leaf, leaf], leaf]` yields sections "1.1", "1.2", "2" in that order, and
for every body structure the walked section list has no duplicates. -/
theorem claim_C7 :
    ((iter_leaf_parts bs2level "").map Prod.fst = ["1.1", "1.2", "2"]) ∧
    ∀ bs : BodyStructure, ((iter_leaf_parts bs "").map Prod.fst).Nodup := by
  constructor
  · have e1 : natStr 1 = "1" := by simp [natStr, natChars, Nat.digitChar]
    have e2 : natStr 2 = "2" := by simp [natStr, natChars, Nat.digitChar]
    simp [bs2level, iter_leaf_parts, iterChildren, e1, e2, String.isEmpty_iff]
  · intro bs
    cases bs with
    | leaf t => simp [iter_leaf_parts]
    | multi cs =>
      have hiter := iter_eq_paths (.multi cs) []
      rw [show renderPath [] = "" from rfl] at hiter
      rw [hiter, List.map_map]
      rw [show ((leafPaths (.multi cs) []).map
            (Prod.fst ∘ fun q : List Nat × LeafTuple => (sectionOfPath q.1, q.2)))
          = ((leafPaths (.multi cs) []).map Prod.fst).map sectionOfPath from by
        rw [List.map_map]; rfl]
      apply List.Nodup.map_on ?_ (leafPaths_nodup (.multi cs) [])
      intro q1 hq1 q2 hq2 heq
      obtain ⟨x, hx, hxq⟩ := List.mem_map.mp hq1
      obtain ⟨y, hy, hyq⟩ := List.mem_map.mp hq2
      simp only [leafPaths] at hx hy
      obtain ⟨j1, s1, _, hj1⟩ := leafPathsChildren_ext cs [] 1 x hx
      obtain ⟨j2, s2, _, hj2⟩ := leafPathsChildren_ext cs [] 1 y hy
      have hne1 : q1 ≠ [] := by rw [← hxq, hj1]; simp
      have hne2 : q2 ≠ [] := by rw [← hyq, hj2]; simp
      have hsec : ∀ q : List Nat, q ≠ [] → sectionOfPath q = renderPath q := by
        intro q hq
        unfold sectionOfPath
        exact if_neg (by simpa [List.isEmpty_iff] using hq)
      rw [hsec q1 hne1, hsec q2 hne2] at heq
      exact renderPath_inj q1 q2 hne1 hne2 heq

theorem claim_C8_witness :
    (sampleMessage.body = none ↔
      ∀ sp ∈ iter_leaf_parts sampleMsgData.bodyStructure "",
        leafContentType sp.2 ≠ "text/html" ∧ leafContentType sp.2 ≠ "text/plain") ∧
    sizeKey partSizeNone ≤ sizeKey partSize5 :=
  ⟨claim_C8.1 pdZero "INBOX" 1 sampleMsgData sampleMessage (by decide),
   claim_C8.2.2.1 [partSizeNone, partSize5, partSize3] partSize5 (by decide)
     partSizeNone (List.mem_cons_self _ _)⟩

end Prokaryotes
